import Mathlib

/-!
A shallow embedding of `wall_haven.py` (a bulk wallpaper-downloading
script) and proofs about its behaviour.

Modelling conventions:
* Network I/O is modelled by an environment function mapping the attempt
  index of `requests.get` to its outcome (`ReqOutcome`): either a raised
  `requests.exceptions.RequestException` or a response object with a
  status code and a payload.
* Side effects (log records, console output, sleeps, HTTP requests) are
  collected in an explicit event trace (`List Event`).
* Python floats that the script derives from exact literals
  (`0.3 * 2 ** attempt`, sizes divided by `1024 * 1024`) are modelled as
  rationals.
* A Python function that can raise is embedded as returning `Except`.
-/

namespace WallHaven

/-- Log levels used by the script (`logging.INFO`, `logging.ERROR`). -/
inductive Level
  | info
  | error
  deriving DecidableEq, Repr

/-- The value stored under one key of a Python params dict passed to
`requests.get`: the script stores strings and lists of strings from URL
parsing, and a raw page number (`_params['page'] = _page`). -/
inductive QVal
  | str (s : String)
  | strs (l : List String)
  | nat (n : Nat)
  deriving DecidableEq, Repr

/-- A Python dict of request parameters, as an insertion-ordered
association list. -/
abbrev Query := List (String × QVal)

/-- The distinct log/console messages the script emits, abstracted from
their formatted text. -/
inductive LogMsg
  | got429                      -- "收到 429 错误，等待 ... 秒后重试..."
  | requestFailed               -- "请求失败: {e}"
  | waitRetry                   -- "等待 ... 秒后重试..."
  | exhausted                   -- "请求失败，已重试 {retries} 次，放弃。"
  | idsFetched                  -- "壁纸 ID 获取成功."
  | singleFailed (status : Nat) -- "请求失败，状态码：{status}"
  | pageOk (page : Nat)         -- "第 {page} 页的壁纸 ID 获取成功."
  | pageFailed (page : Nat) (status : Nat) -- "请求第 {page} 页时失败..."
  | imageSaved (filename : String) (sizeMB : ℚ) -- "图片已保存为 ..."
  | downloadFailed (url : String) -- "下载失败: {url}"
  | savedId (id : String)       -- "壁纸 ID {id} 已保存到 {filename}"
  | dupId (id : String)         -- "壁纸 ID {id} 已存在，未保存"
  | origUrl (url : String)      -- "原图 URL: {url}"
  | fileExists (filename : String) -- "图片 {filename} 已存在，跳过下载。"
  | noOrigUrl                   -- "未能获取原图 URL"
  deriving DecidableEq, Repr

/-- One observable side effect of the script. `httpGet` records a call
to `requests.get` together with the params it was given, whether it was
routed through the module-level `proxies`, and whether `stream=True`.
`log` records a `log_and_print` call (log file and console);
`consoleOut` records a bare `print`. `sleepUniform lo hi` records
`time.sleep(random.uniform(lo, hi))`. -/
inductive Event
  | httpGet (params : Option Query) (proxied : Bool) (stream : Bool)
  | log (lvl : Level) (msg : LogMsg)
  | consoleOut (msg : LogMsg)
  | sleep (seconds : ℚ)
  | sleepUniform (lo hi : ℚ)
  deriving DecidableEq, Repr

/-- Python exceptions that the embedded fragments can raise. -/
inductive PyExn
  | attributeError              -- e.g. `None.status_code`
  | valueError
  deriving DecidableEq, Repr

/-- Outcome of one `requests.get` call: a raised
`requests.exceptions.RequestException`, or a response carrying a status
code and a payload (the part of the body/headers the caller reads). -/
inductive ReqOutcome (α : Type)
  | exn
  | resp (status : Nat) (payload : α)
  deriving DecidableEq, Repr

/-- A response object as seen by the script's callers: its
`status_code` plus the payload the caller extracts from it. -/
structure HttpResp (α : Type) where
  status : Nat
  payload : α
  deriving DecidableEq, Repr

/-- The loop body of `make_request`, recursing on the remaining loop
iterations (`fuel`, with `attempt + fuel = retries` at every call).
Mirrors:

```python
for attempt in range(retries):
    try:
        response = requests.get(_url, params=_params, proxies=proxies, stream=stream)
        if response.status_code == 429:
            wait_time = backoff_factor * (2 ** attempt)
            log_and_print(f"收到 429 错误，等待 {wait_time} 秒后重试...")
            time.sleep(wait_time)
            continue
        response.raise_for_status()
        return response
    except requests.exceptions.RequestException as e:
        log_and_print(f"请求失败: {e}", logging.ERROR)
        if attempt < retries - 1:
            wait_time = backoff_factor * (2 ** attempt)
            log_and_print(f"等待 {wait_time} 秒后重试...")
            time.sleep(wait_time)
        else:
            log_and_print(f"请求失败，已重试 {retries} 次，放弃。", logging.ERROR)
            return None
```

`requests.Response.raise_for_status` raises `requests.exceptions.HTTPError`
(a `RequestException`) exactly when `400 <= status_code < 600`; statuses
below 400 fall through and the response is returned. When every attempt
hits the `continue` branch the `for` loop ends and the function returns
`None` implicitly. -/
def makeRequestGo (out : Nat → ReqOutcome α) (q : Option Query) (stream : Bool)
    (retries : Nat) (backoff : ℚ) :
    Nat → Nat → Option (HttpResp α) × List Event
  | _, 0 => (none, [])
  | attempt, fuel + 1 =>
    let getEv := Event.httpGet q true stream
    let failBranch : Unit → Option (HttpResp α) × List Event := fun _ =>
      if attempt < retries - 1 then
        let w := backoff * 2 ^ attempt
        let rest := makeRequestGo out q stream retries backoff (attempt + 1) fuel
        (rest.1, getEv :: Event.log .error .requestFailed ::
          Event.log .info .waitRetry :: Event.sleep w :: rest.2)
      else
        (none, [getEv, Event.log .error .requestFailed, Event.log .error .exhausted])
    match out attempt with
    | .exn => failBranch ()
    | .resp s p =>
      if s = 429 then
        let w := backoff * 2 ^ attempt
        let rest := makeRequestGo out q stream retries backoff (attempt + 1) fuel
        (rest.1, getEv :: Event.log .info .got429 :: Event.sleep w :: rest.2)
      else if 400 ≤ s ∧ s < 600 then
        failBranch ()
      else
        (some ⟨s, p⟩, [getEv])

/-- `make_request(_url, _params=None, stream=False, retries=3,
backoff_factor=0.3)`: the script's retrying HTTP executor. The `_url`
argument only selects the remote endpoint and is represented by the
environment `out`; no caller overrides `retries` or `backoff_factor`. -/
def make_request (out : Nat → ReqOutcome α) (q : Option Query) (stream : Bool) :
    Option (HttpResp α) × List Event :=
  makeRequestGo out q stream 3 (3 / 10) 0 3

example :
    make_request (fun _ => ReqOutcome.resp 200 "ok") none false =
      (some ⟨200, "ok"⟩, [Event.httpGet none true false]) := by
  decide

example :
    (make_request (fun _ => (ReqOutcome.exn : ReqOutcome Unit)) none false).1 = none := by
  decide

example :
    (make_request (fun _ => (ReqOutcome.resp 429 () : ReqOutcome Unit)) none false).1 =
      none := by
  decide

/-- A local file system: file path ↦ byte contents. -/
abbrev FS := List (String × List Nat)

/-- Look up the contents of a file (`none` = file does not exist). -/
def fsLookup : FS → String → Option (List Nat)
  | [], _ => none
  | (k, v) :: rest, p => if k = p then some v else fsLookup rest p

/-- Create or truncate-and-write a file (Python `open(path, 'wb')`
followed by the writes). -/
def fsSet : FS → String → List Nat → FS
  | [], p, v => [(p, v)]
  | (k, w) :: rest, p, v =>
    if k = p then (p, v) :: rest else (k, w) :: fsSet rest p v

/-- `fetch_wallpaper_ids_single(base_url, _params)`: one search request
through `make_request`; the payload is the list of `id` fields of the
response's `data` array. Note the code dereferences
`_response.status_code` without a `None` check, so executor exhaustion
raises `AttributeError`. -/
def fetch_wallpaper_ids_single (out : Nat → ReqOutcome (List String))
    (params : Query) : Except PyExn (List String) × List Event :=
  let r := make_request out (some params) false
  match r.1 with
  | none => (.error .attributeError, r.2)
  | some resp =>
    if resp.status = 200 then
      (.ok resp.payload, r.2 ++ [Event.log .info .idsFetched])
    else
      (.ok [], r.2 ++ [Event.log .error (.singleFailed resp.status)])

/-- The part of a streamed response `download_image` reads: the
`content-length` header (absent or a byte count) and the body bytes. -/
structure StreamPayload where
  contentLength : Option Nat
  body : List Nat
  deriving DecidableEq, Repr

instance {ε α : Type} [DecidableEq ε] [DecidableEq α] :
    DecidableEq (Except ε α) := fun a b =>
  match a, b with
  | .ok x, .ok y =>
    if h : x = y then .isTrue (by rw [h]) else .isFalse (by simp [h])
  | .error x, .error y =>
    if h : x = y then .isTrue (by rw [h]) else .isFalse (by simp [h])
  | .ok _, .error _ => .isFalse (by simp)
  | .error _, .ok _ => .isFalse (by simp)

/-- Accumulator loop for `chunked`: `acc` holds the current chunk in
reverse; a chunk is emitted whenever it reaches `n` elements, and the
final partial chunk is emitted if non-empty. -/
def chunkedAux (n : Nat) : List α → List α → List (List α)
  | acc, [] => if acc.isEmpty then [] else [acc.reverse]
  | acc, a :: l =>
    if acc.length + 1 = n then (a :: acc).reverse :: chunkedAux n [] l
    else chunkedAux n (a :: acc) l

/-- `response.iter_content(n)`: the body split into successive chunks of
`n` bytes, the last chunk possibly shorter (the script passes
`n = 1024`). -/
def chunked (n : Nat) (l : List α) : List (List α) :=
  chunkedAux n [] l

/-- `download_image(image_url, filename)`: streamed fetch through
`make_request(image_url, stream=True)`. On a 200 it reads
`int(headers.get('content-length', 0))`, opens the destination with
`open(filename, 'wb')`, writes every non-empty 1024-byte chunk, and
logs `total_size / (1024 * 1024)` as the saved size in MB; on another
status it logs an error. On a `None` return from the executor,
`_response.status_code` raises `AttributeError`. -/
def download_image (out : Nat → ReqOutcome StreamPayload)
    (image_url filename : String) (fs : FS) :
    Except PyExn Unit × FS × List Event :=
  let r := make_request out none true
  match r.1 with
  | none => (.error .attributeError, fs, r.2)
  | some resp =>
    if resp.status = 200 then
      let total_size := resp.payload.contentLength.getD 0
      let written := (List.filter (fun c => !c.isEmpty)
        (chunked 1024 resp.payload.body)).flatten
      let mb : ℚ := (total_size : ℚ) / (1024 * 1024)
      (.ok (), fsSet fs filename written,
        r.2 ++ [Event.log .info (.imageSaved filename mb)])
    else
      (.ok (), fs, r.2 ++ [Event.log .error (.downloadFailed image_url)])

/-- The append loop of `save_wallpaper_ids_to_file`: returns the lines
appended to the file, in input order. `existing` (the set
`{line.strip() for line in f}` read before the loop) is never updated
inside the loop. -/
def saveGo (existing : List String) : List String → List String × List Event
  | [] => ([], [])
  | id :: rest =>
    let r := saveGo existing rest
    if existing.contains id then
      (r.1, Event.log .info (.dupId id) :: r.2)
    else
      (id :: r.1, Event.log .info (.savedId id) :: r.2)

/-- `save_wallpaper_ids_to_file(pic_ids, filename)`: the ledger. The
file is a list of identifier lines (`none` = the file does not exist,
giving `FileNotFoundError` on read and an empty `existing_ids` set);
the file is then opened in append mode and each input identifier not in
`existing_ids` is written as one line. Returns the file's lines after
the call. -/
def save_wallpaper_ids_to_file (pic_ids : List String)
    (file : Option (List String)) : List String × List Event :=
  let existing := file.getD []
  let r := saveGo existing pic_ids
  (existing ++ r.1, r.2)

example :
    (save_wallpaper_ids_to_file ["a", "b", "a"] (some ["b"])).1 =
      ["b", "a", "a"] := by
  decide

example :
    (fetch_wallpaper_ids_single
      (fun _ => ReqOutcome.resp 200 ["x1", "x2"]) []).1 =
      Except.ok ["x1", "x2"] := by
  decide

example :
    (download_image (fun _ => ReqOutcome.resp 200 ⟨some 2, [97, 98]⟩)
      "u" "f" []).2.1 = [("f", [97, 98])] := by
  decide

example : chunked 2 [1, 2, 3, 4, 5] = [[1, 2], [3, 4], [5]] := by decide

/-- `_params['page'] = _page`: Python dict assignment — updates the
value in place if the key exists (keeping its position), else appends
the new binding. -/
def setParam : Query → String → QVal → Query
  | [], k, v => [(k, v)]
  | (k', v') :: rest, k, v =>
    if k' = k then (k, v) :: rest else (k', v') :: setParam rest k v

/-- The page loop of `fetch_wallpaper_ids_paginated`, over the list of
page numbers `range(start_page, end_page + 1)`. For each page it sets
`_params['page']`, issues `make_request(base_url, _params)` (the
environment `out` maps the params actually sent, and the attempt index,
to the outcome), accumulates ids on a 200, logs the per-page outcome,
and then sleeps `random.uniform(1.2, 1.5)` seconds. A `None` executor
result raises `AttributeError` at `_response.status_code`, which aborts
the whole loop (the ids accumulated so far are lost). The dict mutation
persists, so later pages start from the already-updated params. -/
def fetchPagesGo (out : Query → Nat → ReqOutcome (List String)) :
    Query → List Nat → Except PyExn (List String) × List Event
  | _, [] => (.ok [], [])
  | params, p :: rest =>
    let params' := setParam params "page" (.nat p)
    let r := make_request (out params') (some params') false
    match r.1 with
    | none => (.error .attributeError, r.2)
    | some resp =>
      let pageEv := if resp.status = 200 then Event.log .info (.pageOk p)
        else Event.log .error (.pageFailed p resp.status)
      let pageIds := if resp.status = 200 then resp.payload else []
      let tail := fetchPagesGo out params' rest
      (tail.1.map (fun ids => pageIds ++ ids),
        r.2 ++ [pageEv, Event.sleepUniform (12 / 10) (15 / 10)] ++ tail.2)

/-- `fetch_wallpaper_ids_paginated(base_url, _params, start_page,
end_page)`: iterates `for _page in range(start_page, end_page + 1)`. -/
def fetch_wallpaper_ids_paginated (out : Query → Nat → ReqOutcome (List String))
    (params : Query) (start_page end_page : Nat) :
    Except PyExn (List String) × List Event :=
  fetchPagesGo out params (List.range' start_page (end_page + 1 - start_page))

/-- `get_wallpaper_details(pic_id)` as written in the source: a single
direct `requests.get(f"https://wallhaven.cc/api/v1/w/{pic_id}")` — not
routed through `make_request`, with no `proxies=` argument and no
retry. The environment `out` gives the outcome of each `requests.get`
attempt; the code only ever performs attempt `0`. On a 200 it returns
`data['data']['path']`; on a 4xx/5xx status `raise_for_status` raises
`HTTPError`, caught by the `except` clause which prints the error and
returns `None`; on a raised `RequestException` likewise; on a non-200
status below 400 `raise_for_status` returns and the function falls off
the end, returning `None`. (The `if response is None` guard is dead
code: `requests.get` never returns `None`.) -/
def get_wallpaper_details (out : Nat → ReqOutcome String) :
    Option String × List Event :=
  let getEv := Event.httpGet none false false
  match out 0 with
  | .exn => (none, [getEv, Event.consoleOut .requestFailed])
  | .resp s path =>
    if s = 200 then (some path, [getEv])
    else if 400 ≤ s ∧ s < 600 then (none, [getEv, Event.consoleOut .requestFailed])
    else (none, [getEv])

/-- Modelled from the spec (§4.4 Detail Resolver, §6 Network egress),
for comparison with `get_wallpaper_details`: "issues a single
non-retried-by-this-layer request (it delegates retry to the Executor)"
— i.e. goes through `make_request`, hence proxied and retried — and on
success extracts the asset path; on any failure logs the error and
yields nothing. -/
def getWallpaperDetailsSpec (out : Nat → ReqOutcome String) :
    Option String × List Event :=
  let r := make_request out none false
  match r.1 with
  | none => (none, r.2 ++ [Event.consoleOut .requestFailed])
  | some resp =>
    if resp.status = 200 then (some resp.payload, r.2)
    else (none, r.2 ++ [Event.consoleOut .requestFailed])

/-- The sequential `future.result()` loop of the orchestrator: walks
the futures' outcomes in submission order, retrieving each; the first
raised exception re-raises out of the loop, so later outcomes are never
retrieved. Returns (the outcomes retrieved, the exception propagated if
any). -/
def drainGo {ε : Type} : List (Except ε Unit) → List (Except ε Unit) × Option ε
  | [] => ([], none)
  | .ok () :: rest =>
    let r := drainGo rest
    (.ok () :: r.1, r.2)
  | .error e :: _ => ([.error e], some e)

/-- `download_wallpapers_concurrently(pic_ids, directory, max_workers)`.
Thread model: `ThreadPoolExecutor(max_workers)` raises `ValueError` if
`max_workers <= 0`; otherwise one future per identifier is submitted,
running `main(wallpaper_id, directory)` — abstracted here as `unitRun`
giving each unit's terminal outcome — and the `with` block's
`shutdown(wait=True)` joins every future, so every submitted unit runs
to completion regardless of other units' failures. The result loop
(`drainGo`) then retrieves outcomes sequentially. Returns
(per-identifier completed outcomes, outcomes retrieved by the loop,
exception propagated out of the call if any). -/
def download_wallpapers_concurrently {ε : Type} (unitRun : String → Except ε Unit)
    (pic_ids : List String) (max_workers : Nat) :
    Except PyExn (List (String × Except ε Unit) × List (Except ε Unit) × Option ε) :=
  if max_workers = 0 then .error .valueError
  else
    .ok (pic_ids.map (fun i => (i, unitRun i)), drainGo (pic_ids.map unitRun))

/-- `s.split(sep)` for a one-character separator (Python semantics:
`''.split('&') == ['']`). -/
def splitOnChar (c : Char) : List Char → List (List Char)
  | [] => [[]]
  | a :: l =>
    let r := splitOnChar c l
    if a = c then [] :: r
    else
      match r with
      | [] => [[a]]
      | h :: t => (a :: h) :: t

/-- `url.split('/')[-1]`: the trailing path segment. (`str.split` on a
one-character separator, last element; `split` never returns an empty
list.) -/
def lastSegment (s : String) : String :=
  String.mk ((splitOnChar '/' s.toList).getLastD [])

/-- The download step of `main` (everything after the original-image
URL is known): builds `pic_filepath = os.path.join(directory,
pic_filename)` (path join abstracted as `/`-concatenation), and if a
file already exists there logs the skip and returns, else calls
`download_image`. -/
def mainDownloadStep (streamOut : Nat → ReqOutcome StreamPayload)
    (original_image_url directory : String) (fs : FS) :
    Except PyExn Unit × FS × List Event :=
  let pic_filename := lastSegment original_image_url
  let pic_filepath := directory ++ "/" ++ pic_filename
  if (fsLookup fs pic_filepath).isSome then
    (.ok (), fs, [Event.log .info (.fileExists pic_filename)])
  else
    download_image streamOut original_image_url pic_filepath fs

/-- `main(pic_id, directory)`: resolve the identifier's original-image
URL, then run the download step; when resolution yields `None`, log an
error and return. `detailOut`/`streamOut` are the network environments
of the two requests (the identifier itself only selects the remote
endpoint). -/
def main (detailOut : Nat → ReqOutcome String)
    (streamOut : Nat → ReqOutcome StreamPayload)
    (directory : String) (fs : FS) :
    Except PyExn Unit × FS × List Event :=
  let d := get_wallpaper_details detailOut
  match d.1 with
  | some url =>
    let s := mainDownloadStep streamOut url directory fs
    (s.1, s.2.1, d.2 ++ [Event.log .info (.origUrl url)] ++ s.2.2)
  | none => (.ok (), fs, d.2 ++ [Event.log .error .noOrigUrl])

/-! ### The URL parameter parser

`parse_url_params` = `urlparse` + `parse_qs` (with default
`keep_blank_values=False`) + the scalar-or-list comprehension. Strings
are modelled as `List Char`; percent-decoding is modelled
byte-for-char, which is exact for ASCII escapes. -/

/-- The prefix of `l` before the first occurrence of `c` (all of `l` if
`c` is absent). -/
def takeUntilChar (c : Char) : List Char → List Char
  | [] => []
  | a :: l => if a = c then [] else a :: takeUntilChar c l

/-- The suffix of `l` after the first occurrence of `c`, or `none`. -/
def afterChar (c : Char) : List Char → Option (List Char)
  | [] => none
  | a :: l => if a = c then some l else afterChar c l

/-- `urlsplit`'s extraction of the query component: the fragment is
split off at the first `#`, then the query is whatever follows the
first `?` of the remainder (empty if there is no `?`). -/
def extractQuery (url : List Char) : List Char :=
  match afterChar '?' (takeUntilChar '#' url) with
  | some q => q
  | none => []

def isHexDigitChar (c : Char) : Bool :=
  c.isDigit || ('a' ≤ c && c ≤ 'f') || ('A' ≤ c && c ≤ 'F')

def hexVal (c : Char) : Nat :=
  if c.isDigit then c.toNat - 48
  else if 'a' ≤ c && c ≤ 'f' then c.toNat - 87
  else c.toNat - 55

/-- Fuel-driven loop of `unquoteChars`; the fuel is the input length
(each step consumes at least one character and one unit of fuel). -/
def unquoteGo : Nat → List Char → List Char
  | 0, l => l
  | _ + 1, [] => []
  | fuel + 1, '%' :: rest =>
    match rest with
    | a :: b :: rest' =>
      if isHexDigitChar a && isHexDigitChar b then
        Char.ofNat (16 * hexVal a + hexVal b) :: unquoteGo fuel rest'
      else '%' :: unquoteGo fuel (a :: b :: rest')
    | _ => '%' :: unquoteGo fuel rest
  | fuel + 1, c :: rest => c :: unquoteGo fuel rest

/-- `urllib.parse.unquote`: each `%hh` (two hex digits) becomes the
character with that code; a `%` not followed by two hex digits is kept
literally. -/
def unquoteChars (l : List Char) : List Char :=
  unquoteGo l.length l

/-- `parse_qsl`'s decoding of a name or value:
`.replace('+', ' ')` then `unquote`. -/
def unquotePy (l : List Char) : List Char :=
  unquoteChars (l.map (fun c => if c = '+' then ' ' else c))

/-- One field of the query string, as `parse_qsl` treats it
(`keep_blank_values=False`, `strict_parsing=False`): an empty field, a
field without `=`, and a field whose raw value is empty are all
dropped; otherwise the name/value are decoded and kept. -/
def pairOfField (f : List Char) : Option (List Char × List Char) :=
  if f.isEmpty then none
  else
    match afterChar '=' f with
    | none => none
    | some v =>
      if v.isEmpty then none
      else some (unquotePy (takeUntilChar '=' f), unquotePy v)

/-- The fields of a query string: `qs.split('&') if qs else []`. -/
def queryFields (qs : List Char) : List (List Char) :=
  if qs.isEmpty then [] else splitOnChar '&' qs

/-- `parse_qsl(qs)` with the script's (default) arguments: the kept
(name, value) pairs in appearance order. -/
def parse_qsl (qs : List Char) : List (List Char × List Char) :=
  (queryFields qs).filterMap pairOfField

/-- Appending one value under a key in a Python dict of lists:
`d[k].append(v)` if present (position kept), else `d[k] = [v]`
(inserted at the end). -/
def qsAppend : List (List Char × List (List Char)) → List Char → List Char →
    List (List Char × List (List Char))
  | [], k, v => [(k, [v])]
  | (k', vs) :: rest, k, v =>
    if k' = k then (k', vs ++ [v]) :: rest
    else (k', vs) :: qsAppend rest k v

/-- `parse_qs(qs)`: groups the pairs of `parse_qsl` into an
insertion-ordered dict of value lists. -/
def parse_qs (qs : List Char) : List (List Char × List (List Char)) :=
  (parse_qsl qs).foldl (fun d kv => qsAppend d kv.1 kv.2) []

/-- The value of one parameter in the mapping `parse_url_params`
returns: `v[0] if len(v) == 1 else v`. -/
inductive PVal
  | scalar (v : List Char)
  | multi (vs : List (List Char))
  deriving DecidableEq, Repr

/-- `parse_url_params(_url)`:
`{k: v[0] if len(v) == 1 else v for k, v in parse_qs(urlparse(_url).query).items()}`. -/
def parse_url_params (url : List Char) : List (List Char × PVal) :=
  (parse_qs (extractQuery url)).map (fun kv =>
    (kv.1, match kv.2 with
           | [v] => PVal.scalar v
           | vs => PVal.multi vs))

/-- Dict lookup in the parser's result. -/
def plookup : List (List Char × PVal) → List Char → Option PVal
  | [], _ => none
  | (k', v) :: rest, k => if k' = k then some v else plookup rest k

/-- The values associated with key `k` among the kept query pairs, in
appearance order. -/
def valuesOf (k : List Char) (pairs : List (List Char × List Char)) :
    List (List Char) :=
  (pairs.filter (fun kv => kv.1 == k)).map Prod.snd

/-- Dict lookup in the grouped `parse_qs` result. -/
def qsLookup : List (List Char × List (List Char)) → List Char →
    Option (List (List Char))
  | [], _ => none
  | (k', vs) :: rest, k => if k' = k then some vs else qsLookup rest k

/-- Append a batch of values to an optional existing value list
(absent + no new values stays absent). -/
def optAppend : Option (List (List Char)) → List (List Char) →
    Option (List (List Char))
  | none, [] => none
  | none, v :: vs => some (v :: vs)
  | some vs, ws => some (vs ++ ws)

example :
    parse_url_params "https://wallhaven.cc/search?q=like%3A5gqdq1&page=3".toList =
      [("q".toList, PVal.scalar "like:5gqdq1".toList),
       ("page".toList, PVal.scalar "3".toList)] := by
  decide

example :
    parse_url_params "https://x/s?a=1&b=2&a=3".toList =
      [("a".toList, PVal.multi ["1".toList, "3".toList]),
       ("b".toList, PVal.scalar "2".toList)] := by
  decide

example :
    parse_url_params "https://x/s?q=&page=3".toList =
      [("page".toList, PVal.scalar "3".toList)] := by
  decide

example : parse_url_params "https://x/s".toList = [] := by decide

/-- `true` exactly for the events that are `requests.get` calls. -/
def Event.isHttpGet : Event → Bool
  | .httpGet _ _ _ => true
  | _ => false

/-! ### Helper lemmas -/

theorem chunkedAux_nil (n : Nat) (acc : List α) :
    chunkedAux n acc ([] : List α) =
      if acc.isEmpty then [] else [acc.reverse] := rfl

theorem chunkedAux_cons (n : Nat) (acc : List α) (a : α) (l : List α) :
    chunkedAux n acc (a :: l) =
      if acc.length + 1 = n then (a :: acc).reverse :: chunkedAux n [] l
      else chunkedAux n (a :: acc) l := rfl

theorem chunkedAux_flatten (n : Nat) (l acc : List α) :
    (chunkedAux n acc l).flatten = acc.reverse ++ l := by
  induction l generalizing acc with
  | nil =>
    rw [chunkedAux_nil]
    by_cases h : acc.isEmpty
    · rw [if_pos h]
      simp [List.isEmpty_iff.mp h]
    · rw [if_neg h]
      simp
  | cons a t ih =>
    rw [chunkedAux_cons]
    by_cases h : acc.length + 1 = n
    · rw [if_pos h]
      simp [ih]
    · rw [if_neg h]
      simp [ih]

theorem chunked_flatten (n : Nat) (l : List α) : (chunked n l).flatten = l := by
  simp [chunked, chunkedAux_flatten]

theorem chunkedAux_ne_nil (n : Nat) (l acc : List α) :
    ∀ c ∈ chunkedAux n acc l, c ≠ [] := by
  induction l generalizing acc with
  | nil =>
    intro c hc
    rw [chunkedAux_nil] at hc
    by_cases h : acc.isEmpty
    · rw [if_pos h] at hc
      simp at hc
    · rw [if_neg h] at hc
      simp only [List.mem_singleton] at hc
      subst hc
      simpa [List.isEmpty_iff, List.reverse_eq_nil_iff] using h
  | cons a t ih =>
    intro c hc
    rw [chunkedAux_cons] at hc
    by_cases h : acc.length + 1 = n
    · rw [if_pos h] at hc
      rcases List.mem_cons.mp hc with rfl | hc
      · simp
      · exact ih [] c hc
    · rw [if_neg h] at hc
      exact ih (a :: acc) c hc

theorem chunkedAux_length_le (n : Nat) (l : List α) :
    ∀ acc : List α, acc.length < n → ∀ c ∈ chunkedAux n acc l, c.length ≤ n := by
  induction l with
  | nil =>
    intro acc hacc c hc
    rw [chunkedAux_nil] at hc
    by_cases h : acc.isEmpty
    · rw [if_pos h] at hc
      simp at hc
    · rw [if_neg h] at hc
      simp only [List.mem_singleton] at hc
      subst hc
      simp only [List.length_reverse]
      omega
  | cons a t ih =>
    intro acc hacc c hc
    rw [chunkedAux_cons] at hc
    by_cases h : acc.length + 1 = n
    · rw [if_pos h] at hc
      rcases List.mem_cons.mp hc with rfl | hc
      · simp only [List.length_reverse, List.length_cons]
        omega
      · exact ih [] (by simp only [List.length_nil]; omega) c hc
    · rw [if_neg h] at hc
      exact ih (a :: acc) (by simp only [List.length_cons]; omega) c hc

theorem chunked_filter_flatten (n : Nat) (l : List α) :
    (List.filter (fun c => !c.isEmpty) (chunked n l)).flatten = l := by
  have h : List.filter (fun c => !c.isEmpty) (chunked n l) = chunked n l := by
    apply List.filter_eq_self.mpr
    intro c hc
    have := chunkedAux_ne_nil n l [] c hc
    simpa [List.isEmpty_iff] using this
  rw [h, chunked_flatten]

/-! ### C7: executor exhaustion -/

/-- C7 counterexample: when every one of the 3 attempts receives a 429,
`make_request` does return a failure signal (`None`), but it never
emits the error-level exhaustion log entry — the `for` loop simply runs
out and the function falls off its end, so the claimed error-level
exhaustion record is absent from the trace. -/
theorem make_request_all_429_silent_exhaustion :
    (make_request (fun _ => (ReqOutcome.resp 429 0 : ReqOutcome Nat)) none false).1 =
        none ∧
    Event.log Level.error LogMsg.exhausted ∉
      (make_request (fun _ => (ReqOutcome.resp 429 0 : ReqOutcome Nat)) none false).2 := by
  decide

/-- C7 (amended): when all 3 attempts fail with transport-level
exceptions (or 4xx/5xx statuses raised by `raise_for_status`),
`make_request` returns `None`, logs each failure and a final
error-level exhaustion entry, and sleeps `0.3 * 2 ** attempt` seconds
before each retry; when all 3 attempts are rate-limit (429) responses
it returns `None` by falling off the retry loop, logging each 429 at
info level and sleeping `0.3 * 2 ** attempt` after every attempt
(including the last) but emitting no exhaustion log entry. -/
theorem make_request_exhaustion_amended {α : Type} (out : Nat → ReqOutcome α)
    (q : Option Query) (st : Bool) :
    ((∀ i, i < 3 → out i = ReqOutcome.exn) →
      make_request out q st =
        (none,
         [Event.httpGet q true st, Event.log .error .requestFailed,
          Event.log .info .waitRetry, Event.sleep (3 / 10 * 2 ^ 0),
          Event.httpGet q true st, Event.log .error .requestFailed,
          Event.log .info .waitRetry, Event.sleep (3 / 10 * 2 ^ 1),
          Event.httpGet q true st, Event.log .error .requestFailed,
          Event.log .error .exhausted])) ∧
    (∀ pl : Nat → α, (∀ i, i < 3 → out i = ReqOutcome.resp 429 (pl i)) →
      make_request out q st =
        (none,
         [Event.httpGet q true st, Event.log .info .got429,
          Event.sleep (3 / 10 * 2 ^ 0),
          Event.httpGet q true st, Event.log .info .got429,
          Event.sleep (3 / 10 * 2 ^ 1),
          Event.httpGet q true st, Event.log .info .got429,
          Event.sleep (3 / 10 * 2 ^ 2)])) := by
  constructor
  · intro h
    have h0 := h 0 (by omega)
    have h1 := h 1 (by omega)
    have h2 := h 2 (by omega)
    simp [make_request, makeRequestGo, h0, h1, h2]
  · intro pl h
    have h0 := h 0 (by omega)
    have h1 := h 1 (by omega)
    have h2 := h 2 (by omega)
    simp [make_request, makeRequestGo, h0, h1, h2]

/-- Witness for `make_request_exhaustion_amended` at concrete
environments (all attempts raise; all attempts 429). -/
theorem make_request_exhaustion_amended_witness :
    make_request (fun _ => (ReqOutcome.exn : ReqOutcome Nat)) none false =
      (none,
       [Event.httpGet none true false, Event.log .error .requestFailed,
        Event.log .info .waitRetry, Event.sleep (3 / 10 * 2 ^ 0),
        Event.httpGet none true false, Event.log .error .requestFailed,
        Event.log .info .waitRetry, Event.sleep (3 / 10 * 2 ^ 1),
        Event.httpGet none true false, Event.log .error .requestFailed,
        Event.log .error .exhausted]) ∧
    make_request (fun _ => (ReqOutcome.resp 429 7 : ReqOutcome Nat)) none false =
      (none,
       [Event.httpGet none true false, Event.log .info .got429,
        Event.sleep (3 / 10 * 2 ^ 0),
        Event.httpGet none true false, Event.log .info .got429,
        Event.sleep (3 / 10 * 2 ^ 1),
        Event.httpGet none true false, Event.log .info .got429,
        Event.sleep (3 / 10 * 2 ^ 2)]) :=
  ⟨(make_request_exhaustion_amended (fun _ => ReqOutcome.exn) none false).1
      (fun _ _ => rfl),
   (make_request_exhaustion_amended (fun _ => ReqOutcome.resp 429 7) none false).2
      (fun _ => 7) (fun _ _ => rfl)⟩

/-! ### C1: callers dereference the executor's `None` -/

/-- C1: the claim says callers treat an exhausted executor (`None`
return) as "item unavailable, skip" — `fetch_wallpaper_ids_single`
logging an error and returning `[]`, `download_image` logging an error
— without raising. In the code, both callers immediately evaluate
`_response.status_code` on the `None`, raising `AttributeError`
instead: with an environment whose every attempt raises a transport
exception, `fetch_wallpaper_ids_single` propagates `AttributeError`
(in particular it does not return `[]`), and so does
`download_image`. -/
theorem fetch_single_and_download_crash_on_exhaustion :
    (fetch_wallpaper_ids_single (fun _ => (ReqOutcome.exn : ReqOutcome (List String)))
        []).1 = Except.error PyExn.attributeError ∧
    (fetch_wallpaper_ids_single (fun _ => (ReqOutcome.exn : ReqOutcome (List String)))
        []).1 ≠ Except.ok [] ∧
    (download_image (fun _ => (ReqOutcome.exn : ReqOutcome StreamPayload))
        "https://w.wallhaven.cc/full/5g/wallhaven-5gqdq1.jpg" "general/wallhaven-5gqdq1.jpg"
        []).1 = Except.error PyExn.attributeError := by
  decide

/-! ### C9: download executor logged size -/

/-- C9 counterexample: with a 200 streamed response whose
`content-length` header is absent and whose body is two bytes,
`download_image` writes the 2-byte body but logs
`0 / (1024 * 1024)` MB — the declared size, not the size of the file
actually written; the two differ. -/
theorem download_image_logs_declared_not_actual :
    (download_image (fun _ => ReqOutcome.resp 200 ⟨none, [97, 98]⟩) "u" "f" []).2.1 =
        [("f", [97, 98])] ∧
    (download_image (fun _ => ReqOutcome.resp 200 ⟨none, [97, 98]⟩) "u" "f" []).2.2 =
        [Event.httpGet none true true,
         Event.log .info (.imageSaved "f" ((0 : ℚ) / (1024 * 1024)))] ∧
    (0 : ℚ) / (1024 * 1024) ≠
      (([97, 98] : List Nat).length : ℚ) / (1024 * 1024) := by
  refine ⟨by decide, ?_, by norm_num⟩
  simp only [download_image, make_request, makeRequestGo]
  norm_num [chunkedAux]

/-- C9 (amended): on a successful streamed download, `download_image`
writes the full response body to the destination file in chunks of at
most 1 KiB, but the size it logs (in MB) is the declared
`content-length` header divided by `1024 * 1024` — `0` when the header
is absent — which equals the size of the file actually written only
when the header matches the bytes received. -/
theorem download_image_amended (out : Nat → ReqOutcome StreamPayload)
    (u f : String) (fs : FS) (r : HttpResp StreamPayload)
    (hr : (make_request out none true).1 = some r) (h200 : r.status = 200) :
    (download_image out u f fs).1 = Except.ok () ∧
    (download_image out u f fs).2.1 = fsSet fs f r.payload.body ∧
    (download_image out u f fs).2.2 =
      (make_request out none true).2 ++
        [Event.log .info (.imageSaved f
          ((r.payload.contentLength.getD 0 : ℚ) / (1024 * 1024)))] ∧
    (∀ c ∈ chunked 1024 r.payload.body, c ≠ [] ∧ c.length ≤ 1024) := by
  have hmain : download_image out u f fs =
      (Except.ok (), fsSet fs f r.payload.body,
       (make_request out none true).2 ++
         [Event.log .info (.imageSaved f
           ((r.payload.contentLength.getD 0 : ℚ) / (1024 * 1024)))]) := by
    simp only [download_image, hr, h200, chunked_filter_flatten, if_pos]
  refine ⟨by rw [hmain], by rw [hmain], by rw [hmain], ?_⟩
  intro c hc
  exact ⟨chunkedAux_ne_nil 1024 r.payload.body [] c hc,
    chunkedAux_length_le 1024 r.payload.body []
      (by simp only [List.length_nil]; omega) c hc⟩

/-- Witness for `download_image_amended` at a concrete environment
(mismatching declared length 5 against a 2-byte body). -/
theorem download_image_amended_witness :
    (download_image (fun _ => ReqOutcome.resp 200 ⟨some 5, [97, 98]⟩) "u" "f" []).1 =
        Except.ok () ∧
    (download_image (fun _ => ReqOutcome.resp 200 ⟨some 5, [97, 98]⟩) "u" "f" []).2.1 =
        fsSet [] "f" [97, 98] ∧
    (download_image (fun _ => ReqOutcome.resp 200 ⟨some 5, [97, 98]⟩) "u" "f" []).2.2 =
      (make_request (fun _ => ReqOutcome.resp 200 (⟨some 5, [97, 98]⟩ : StreamPayload))
          none true).2 ++
        [Event.log .info (.imageSaved "f" (((5 : Nat) : ℚ) / (1024 * 1024)))] ∧
    (∀ c ∈ chunked 1024 ([97, 98] : List Nat), c ≠ [] ∧ c.length ≤ 1024) := by
  have h := download_image_amended
    (fun _ => ReqOutcome.resp 200 ⟨some 5, [97, 98]⟩) "u" "f" []
    ⟨200, ⟨some 5, [97, 98]⟩⟩ (by decide) rfl
  exact h

/-! ### C2: the ledger -/

theorem saveGo_appended (existing ids : List String) :
    (saveGo existing ids).1 = ids.filter (fun id => !existing.contains id) := by
  induction ids with
  | nil => rfl
  | cons id rest ih =>
    by_cases h : id ∈ existing <;>
      simp [saveGo, h, ih, List.filter_cons]

/-- C2 counterexample: persisting the list `["5gqdq1", "5gqdq1"]`
against a missing file writes the identifier twice in a single run
(`existing_ids` is never updated inside the append loop), and
persisting the same list a second time against the resulting file adds
nothing, leaving two lines — not one — for this unique identifier. -/
theorem save_ids_duplicate_lines_one_run :
    (save_wallpaper_ids_to_file ["5gqdq1", "5gqdq1"] none).1 =
        ["5gqdq1", "5gqdq1"] ∧
    (save_wallpaper_ids_to_file ["5gqdq1", "5gqdq1"] none).1.count "5gqdq1" = 2 ∧
    (save_wallpaper_ids_to_file ["5gqdq1", "5gqdq1"]
        (some (save_wallpaper_ids_to_file ["5gqdq1", "5gqdq1"] none).1)).1.count
        "5gqdq1" = 2 := by
  decide

/-- C2 (amended): `save_wallpaper_ids_to_file` appends exactly the
input identifiers that are not already present in the file, once per
occurrence in the input list — so an identifier already on file is
never re-appended, but a within-run duplicate of a new identifier is
written as many times as it occurs. Consequently the claimed
idempotence (exactly one line per unique identifier after persisting
the same list twice) holds when the input list has no internal
duplicates and the initial file has at most one line per identifier. -/
theorem save_ids_ledger_amended :
    (∀ (ids : List String) (file : Option (List String)),
       (save_wallpaper_ids_to_file ids file).1 =
         file.getD [] ++
           ids.filter (fun id => !(file.getD []).contains id)) ∧
    (∀ (ids : List String) (file : Option (List String)),
       ids.Nodup → (∀ s : String, (file.getD []).count s ≤ 1) →
       ∀ id ∈ ids,
         (save_wallpaper_ids_to_file ids
            (some (save_wallpaper_ids_to_file ids file).1)).1.count id = 1) := by
  have hfst : ∀ (ids : List String) (file : Option (List String)),
      (save_wallpaper_ids_to_file ids file).1 =
        file.getD [] ++ ids.filter (fun id => !(file.getD []).contains id) := by
    intro ids file
    simp [save_wallpaper_ids_to_file, saveGo_appended]
  refine ⟨hfst, ?_⟩
  intro ids file hnodup hcount id hid
  rw [hfst, hfst]
  simp only [Option.getD_some]
  set L0 := file.getD [] with hL0
  set F0 := ids.filter (fun id => !L0.contains id) with hF0
  set L1 := L0 ++ F0 with hL1
  set F1 := ids.filter (fun id => !L1.contains id) with hF1
  rw [List.count_append, hL1, List.count_append]
  by_cases hm : id ∈ L0
  · have hc0 : L0.count id = 1 := by
      have h1 := hcount id
      have h2 : 0 < L0.count id := List.count_pos_iff.mpr hm
      omega
    have hcF0 : F0.count id = 0 := by
      rw [List.count_eq_zero]
      intro hmem
      have h2 := (List.mem_filter.mp hmem).2
      simp at h2
      exact h2 hm
    have hcF1 : F1.count id = 0 := by
      rw [List.count_eq_zero]
      intro hmem
      have h2 := (List.mem_filter.mp hmem).2
      simp at h2
      exact h2 (by rw [hL1]; exact List.mem_append.mpr (Or.inl hm))
    omega
  · have hc0 : L0.count id = 0 := List.count_eq_zero.mpr hm
    have hpid : (fun id' => !L0.contains id') id = true := by
      simp
      exact hm
    have hcF0 : F0.count id = 1 := by
      have h3 : List.count id (List.filter (fun id' => !L0.contains id') ids) =
          List.count id ids := List.count_filter hpid
      rw [hF0, h3]
      exact List.count_eq_one_of_mem hnodup hid
    have hmemF0 : id ∈ F0 := by
      rw [hF0, List.mem_filter]
      exact ⟨hid, hpid⟩
    have hcF1 : F1.count id = 0 := by
      rw [List.count_eq_zero]
      intro hmem
      have h2 := (List.mem_filter.mp hmem).2
      simp at h2
      exact h2 (by rw [hL1]; exact List.mem_append.mpr (Or.inr hmemF0))
    omega

/-- Witness for `save_ids_ledger_amended` at a concrete input. -/
theorem save_ids_ledger_amended_witness :
    (save_wallpaper_ids_to_file ["a", "b"] none).1 =
      (none : Option (List String)).getD [] ++
        (["a", "b"].filter
          (fun id => !((none : Option (List String)).getD []).contains id)) ∧
    (save_wallpaper_ids_to_file ["a", "b"]
        (some (save_wallpaper_ids_to_file ["a", "b"] none).1)).1.count "a" = 1 :=
  ⟨save_ids_ledger_amended.1 ["a", "b"] none,
   save_ids_ledger_amended.2 ["a", "b"] none (by decide)
     (fun s => by simp) "a" (by decide)⟩

/-! ### C3: the concurrency orchestrator -/

theorem drainGo_spec {ε : Type} (l : List (Except ε Unit)) :
    ((drainGo l).2 = none ∧ (drainGo l).1 = l ∧ ∀ r ∈ l, r = .ok ()) ∨
    (∃ e pre post, l = pre ++ .error e :: post ∧ (∀ r ∈ pre, r = .ok ()) ∧
       (drainGo l).1 = pre ++ [.error e] ∧ (drainGo l).2 = some e) := by
  induction l with
  | nil => exact Or.inl ⟨rfl, rfl, by simp⟩
  | cons a rest ih =>
    match a with
    | .ok () =>
      rcases ih with ⟨h1, h2, h3⟩ | ⟨e, pre, post, h1, h2, h3, h4⟩
      · refine Or.inl ⟨?_, ?_, ?_⟩
        · simpa [drainGo] using h1
        · simpa [drainGo] using h2
        · intro r hr
          rcases List.mem_cons.mp hr with rfl | hr
          · rfl
          · exact h3 r hr
      · refine Or.inr ⟨e, .ok () :: pre, post, by simp [h1], ?_, ?_, ?_⟩
        · intro r hr
          rcases List.mem_cons.mp hr with rfl | hr
          · rfl
          · exact h2 r hr
        · simpa [drainGo] using h3
        · simpa [drainGo] using h4
    | .error e => exact Or.inr ⟨e, [], rest, rfl, by simp, rfl, rfl⟩

/-- C3 counterexample: with two identifiers whose units both raise, the
orchestrator's sequential `future.result()` loop retrieves only the
first unit's exception (which propagates); the second unit's exception
— although the unit ran to completion, as the completed-outcomes list
shows — is never retrieved, refuting "every exception raised inside any
unit is observed (retrieved) ... including when more than one unit
raises". -/
theorem orchestrator_drops_second_exception :
    download_wallpapers_concurrently
        (fun i => (Except.error i : Except String Unit)) ["id1", "id2"] 5 =
      Except.ok ([("id1", Except.error "id1"), ("id2", Except.error "id2")],
        [Except.error "id1"], some "id1") ∧
    (Except.error "id2" : Except String Unit) ∉
      ([Except.error "id1"] : List (Except String Unit)) := by
  decide

/-- C3 (amended): with `max_workers ≥ 1`, the orchestrator schedules
one unit per identifier and its `with` block joins every future, so all
N units run to completion (N per-identifier outcomes, none missing or
duplicated). However, the result loop retrieves outcomes only up to and
including the first exception in submission order: when no unit raises,
every outcome is retrieved; when some unit raises, the first exception
propagates from the collection point and the exceptions of any later
units are never retrieved. -/
theorem orchestrator_amended {ε : Type} (unitRun : String → Except ε Unit)
    (pic_ids : List String) (max_workers : Nat) (hW : 1 ≤ max_workers) :
    ∃ completed retrieved propagated,
      download_wallpapers_concurrently unitRun pic_ids max_workers =
        Except.ok (completed, retrieved, propagated) ∧
      completed = pic_ids.map (fun i => (i, unitRun i)) ∧
      completed.length = pic_ids.length ∧
      completed.map Prod.fst = pic_ids ∧
      (propagated = none →
        retrieved = pic_ids.map unitRun ∧ ∀ i ∈ pic_ids, unitRun i = .ok ()) ∧
      (∀ e, propagated = some e →
        ∃ pre post, pic_ids.map unitRun = pre ++ .error e :: post ∧
          (∀ r ∈ pre, r = .ok ()) ∧ retrieved = pre ++ [.error e]) := by
  refine ⟨pic_ids.map (fun i => (i, unitRun i)),
    (drainGo (pic_ids.map unitRun)).1, (drainGo (pic_ids.map unitRun)).2,
    ?_, rfl, by simp, by simp [Function.comp_def], ?_, ?_⟩
  · have hne : ¬ max_workers = 0 := by omega
    simp [download_wallpapers_concurrently, hne]
  · intro hnone
    rcases drainGo_spec (pic_ids.map unitRun) with ⟨_, h2, h3⟩ |
        ⟨e, pre, post, _, _, _, h4⟩
    · refine ⟨h2, ?_⟩
      intro i hi
      exact h3 (unitRun i) (List.mem_map.mpr ⟨i, hi, rfl⟩)
    · rw [h4] at hnone
      cases hnone
  · intro e he
    rcases drainGo_spec (pic_ids.map unitRun) with ⟨h1, _, _⟩ |
        ⟨e', pre, post, h1, h2, h3, h4⟩
    · rw [h1] at he
      cases he
    · rw [h4] at he
      cases he
      exact ⟨pre, post, h1, h2, h3⟩

/-- Witness for `orchestrator_amended` at concrete inputs. -/
theorem orchestrator_amended_witness :
    ∃ completed retrieved propagated,
      download_wallpapers_concurrently
          (fun _ => (Except.ok () : Except String Unit)) ["a", "b"] 5 =
        Except.ok (completed, retrieved, propagated) ∧
      completed = ["a", "b"].map
        (fun i => (i, (fun _ => (Except.ok () : Except String Unit)) i)) ∧
      completed.length = (["a", "b"] : List String).length ∧
      completed.map Prod.fst = ["a", "b"] ∧
      (propagated = none →
        retrieved = ["a", "b"].map (fun _ => (Except.ok () : Except String Unit)) ∧
        ∀ i ∈ (["a", "b"] : List String),
          (fun _ => (Except.ok () : Except String Unit)) i = .ok ()) ∧
      (∀ e, propagated = some e →
        ∃ pre post,
          ["a", "b"].map (fun _ => (Except.ok () : Except String Unit)) =
            pre ++ .error e :: post ∧
          (∀ r ∈ pre, r = .ok ()) ∧ retrieved = pre ++ [.error e]) :=
  orchestrator_amended (fun _ => (Except.ok () : Except String Unit))
    ["a", "b"] 5 (by omega)

/-! ### C4: the detail resolver -/

/-- C4 counterexample: in an environment where the first request
attempt raises and a second attempt would return a 200 with path
`"PATH"`, the Executor-delegating resolver described by the spec
(`getWallpaperDetailsSpec`) retries and returns the path, while the
code's `get_wallpaper_details` — which calls `requests.get` directly,
once, without `make_request` — returns `None`; moreover its only
request event is unproxied (`requests.get` without `proxies=`), never
the proxied request `make_request` would issue. -/
theorem detail_resolver_bypasses_executor :
    (get_wallpaper_details
        (fun i => if i = 0 then ReqOutcome.exn else ReqOutcome.resp 200 "PATH")).1 =
      none ∧
    (getWallpaperDetailsSpec
        (fun i => if i = 0 then ReqOutcome.exn else ReqOutcome.resp 200 "PATH")).1 =
      some "PATH" ∧
    (get_wallpaper_details
        (fun i => if i = 0 then ReqOutcome.exn else ReqOutcome.resp 200 "PATH")).2 =
      [Event.httpGet none false false, Event.consoleOut .requestFailed] ∧
    Event.httpGet none true false ∉
      (get_wallpaper_details
        (fun i => if i = 0 then ReqOutcome.exn else ReqOutcome.resp 200 "PATH")).2 := by
  decide

/-- C4 (amended): `get_wallpaper_details` issues exactly one direct
`requests.get` — not routed through `make_request`, so without retry or
backoff, and without the configured forward proxy; on a 200 response it
returns the asset path extracted from the body; on any failure it
returns nothing, printing the error to the console when the failure is
a transport exception or a raised 4xx/5xx status, but silently — no
error report at all — when the status is a non-200 outside 400–599
(`raise_for_status` does not raise and the function falls off its
end). -/
theorem detail_resolver_amended (out : Nat → ReqOutcome String) :
    (get_wallpaper_details out).2.filter Event.isHttpGet =
        [Event.httpGet none false false] ∧
    (∀ p, out 0 = ReqOutcome.resp 200 p → (get_wallpaper_details out).1 = some p) ∧
    (∀ s p, out 0 = ReqOutcome.resp s p → s ≠ 200 →
      (get_wallpaper_details out).1 = none) ∧
    (out 0 = ReqOutcome.exn →
      (get_wallpaper_details out).1 = none ∧
      (get_wallpaper_details out).2 =
        [Event.httpGet none false false, Event.consoleOut .requestFailed]) ∧
    (∀ s p, out 0 = ReqOutcome.resp s p → 400 ≤ s ∧ s < 600 →
      (get_wallpaper_details out).2 =
        [Event.httpGet none false false, Event.consoleOut .requestFailed]) ∧
    (∀ s p, out 0 = ReqOutcome.resp s p → s ≠ 200 → ¬(400 ≤ s ∧ s < 600) →
      (get_wallpaper_details out).2 = [Event.httpGet none false false]) := by
  refine ⟨?_, ?_, ?_, ?_, ?_, ?_⟩
  · cases h : out 0 with
    | exn => simp [get_wallpaper_details, h, Event.isHttpGet]
    | resp s p =>
      by_cases hs : s = 200
      · simp [get_wallpaper_details, h, hs, Event.isHttpGet]
      · by_cases h4 : 400 ≤ s ∧ s < 600 <;>
          simp [get_wallpaper_details, h, hs, h4, Event.isHttpGet]
  · intro p hp
    simp [get_wallpaper_details, hp]
  · intro s p hp hs
    by_cases h4 : 400 ≤ s ∧ s < 600 <;> simp [get_wallpaper_details, hp, hs, h4]
  · intro hp
    simp [get_wallpaper_details, hp]
  · intro s p hp h4
    have hs : ¬ s = 200 := by omega
    simp [get_wallpaper_details, hp, hs, h4]
  · intro s p hp hs h4
    simp [get_wallpaper_details, hp, hs, h4]

/-- Witness for `detail_resolver_amended` at concrete environments:
a 200 success, a transport exception (error printed), a raised 404
(error printed), and a silent 304 (no error report). -/
theorem detail_resolver_amended_witness :
    ((get_wallpaper_details (fun _ => ReqOutcome.resp 200 "PATH")).2.filter
        Event.isHttpGet = [Event.httpGet none false false] ∧
     (get_wallpaper_details (fun _ => ReqOutcome.resp 200 "PATH")).1 =
        some "PATH") ∧
    ((get_wallpaper_details (fun _ => (ReqOutcome.exn : ReqOutcome String))).1 =
        none ∧
     (get_wallpaper_details (fun _ => (ReqOutcome.exn : ReqOutcome String))).2 =
        [Event.httpGet none false false, Event.consoleOut .requestFailed]) ∧
    (get_wallpaper_details (fun _ => ReqOutcome.resp 404 "X")).2 =
        [Event.httpGet none false false, Event.consoleOut .requestFailed] ∧
    ((get_wallpaper_details (fun _ => ReqOutcome.resp 304 "X")).1 = none ∧
     (get_wallpaper_details (fun _ => ReqOutcome.resp 304 "X")).2 =
        [Event.httpGet none false false]) :=
  ⟨⟨(detail_resolver_amended (fun _ => ReqOutcome.resp 200 "PATH")).1,
    (detail_resolver_amended (fun _ => ReqOutcome.resp 200 "PATH")).2.1 "PATH" rfl⟩,
   (detail_resolver_amended (fun _ => ReqOutcome.exn)).2.2.2.1 rfl,
   (detail_resolver_amended (fun _ => ReqOutcome.resp 404 "X")).2.2.2.2.1
     404 "X" rfl (by omega),
   ⟨(detail_resolver_amended (fun _ => ReqOutcome.resp 304 "X")).2.2.1
      304 "X" rfl (by omega),
    (detail_resolver_amended (fun _ => ReqOutcome.resp 304 "X")).2.2.2.2.2
      304 "X" rfl (by omega) (by omega)⟩⟩

/-! ### C5: the download skip law -/

/-- C5: if a file already exists at the destination path (the target
directory joined with the trailing path segment of the asset location)
when the download step of `main` runs, the step logs the skip and
returns: it makes no network call, leaves the file system unchanged,
and in particular the existing file's contents are unchanged. -/
theorem download_step_skips_existing_file
    (streamOut : Nat → ReqOutcome StreamPayload) (url directory : String)
    (fs : FS) (c : List Nat)
    (h : fsLookup fs (directory ++ "/" ++ lastSegment url) = some c) :
    (mainDownloadStep streamOut url directory fs).1 = Except.ok () ∧
    (mainDownloadStep streamOut url directory fs).2.1 = fs ∧
    fsLookup (mainDownloadStep streamOut url directory fs).2.1
        (directory ++ "/" ++ lastSegment url) = some c ∧
    (mainDownloadStep streamOut url directory fs).2.2 =
        [Event.log .info (.fileExists (lastSegment url))] ∧
    (∀ ev ∈ (mainDownloadStep streamOut url directory fs).2.2,
      Event.isHttpGet ev = false) := by
  have hstep : mainDownloadStep streamOut url directory fs =
      (Except.ok (), fs, [Event.log .info (.fileExists (lastSegment url))]) := by
    simp [mainDownloadStep, h]
  refine ⟨by rw [hstep], by rw [hstep], by rw [hstep]; exact h, by rw [hstep], ?_⟩
  rw [hstep]
  intro ev hev
  simp only [List.mem_singleton] at hev
  subst hev
  rfl

/-- Witness for `download_step_skips_existing_file` at a concrete
state in which the destination file already exists. -/
theorem download_step_skips_existing_file_witness :
    (mainDownloadStep (fun _ => ReqOutcome.exn)
        "https://w.wallhaven.cc/full/5g/wallhaven-5gqdq1.jpg" "general"
        [("general/wallhaven-5gqdq1.jpg", [1, 2, 3])]).2.1 =
      [("general/wallhaven-5gqdq1.jpg", [1, 2, 3])] ∧
    fsLookup (mainDownloadStep (fun _ => ReqOutcome.exn)
        "https://w.wallhaven.cc/full/5g/wallhaven-5gqdq1.jpg" "general"
        [("general/wallhaven-5gqdq1.jpg", [1, 2, 3])]).2.1
      ("general" ++ "/" ++
        lastSegment "https://w.wallhaven.cc/full/5g/wallhaven-5gqdq1.jpg") =
      some [1, 2, 3] :=
  have h := download_step_skips_existing_file (fun _ => ReqOutcome.exn)
    "https://w.wallhaven.cc/full/5g/wallhaven-5gqdq1.jpg" "general"
    [("general/wallhaven-5gqdq1.jpg", [1, 2, 3])] [1, 2, 3] (by decide)
  ⟨h.2.1, h.2.2.1⟩

/-! ### C6: the paginated collector -/

theorem setParam_setParam (q : Query) (k : String) (v w : QVal) :
    setParam (setParam q k v) k w = setParam q k w := by
  induction q with
  | nil => simp [setParam]
  | cons kv rest ih =>
    obtain ⟨k0, v0⟩ := kv
    by_cases h : k0 = k
    · simp [setParam, h]
    · simp [setParam, h, ih]

theorem fetchPagesGo_spec (out : Query → Nat → ReqOutcome (List String))
    (ps : List Nat) :
    ∀ (params : Query) (R : Nat → HttpResp (List String)),
    (∀ p ∈ ps,
      (make_request (out (setParam params "page" (QVal.nat p)))
        (some (setParam params "page" (QVal.nat p))) false).1 = some (R p)) →
    fetchPagesGo out params ps =
      (Except.ok ((ps.map (fun p =>
          if (R p).status = 200 then (R p).payload else [])).flatten),
       (ps.map (fun p =>
          (make_request (out (setParam params "page" (QVal.nat p)))
            (some (setParam params "page" (QVal.nat p))) false).2 ++
          [(if (R p).status = 200 then Event.log .info (.pageOk p)
            else Event.log .error (.pageFailed p (R p).status)),
           Event.sleepUniform (12 / 10) (15 / 10)])).flatten) := by
  induction ps with
  | nil =>
    intro params R h
    rfl
  | cons p rest ih =>
    intro params R h
    have hp := h p (List.mem_cons_self p rest)
    have hyp : ∀ p' ∈ rest,
        (make_request
          (out (setParam (setParam params "page" (QVal.nat p)) "page" (QVal.nat p')))
          (some (setParam (setParam params "page" (QVal.nat p)) "page" (QVal.nat p')))
          false).1 = some (R p') := by
      intro p' hp'
      rw [setParam_setParam]
      exact h p' (List.mem_cons_of_mem p hp')
    have ih' := ih (setParam params "page" (QVal.nat p)) R hyp
    simp only [fetchPagesGo, hp, ih', setParam_setParam, List.map_cons,
      List.flatten_cons, Except.map]

/-- C6: for `start_page ≤ end_page`, if the executor produces a
response object `R p` for every page `p` of
`range(start_page, end_page + 1)` (each requested with the Query's
`page` parameter set to `p`), then `fetch_wallpaper_ids_paginated`
returns the concatenation of the 200-status pages' identifier lists in
ascending page order with no deduplication; its length is the sum of
the per-page item counts over the successful pages; and the event trace
is exactly, per page in order: that page's request events (with the
page-updated params), the per-page outcome log, and then a
`time.sleep(random.uniform(1.2, 1.5))` — a sleep after every page,
success or failure. -/
theorem paginated_collector_complete
    (out : Query → Nat → ReqOutcome (List String)) (params : Query)
    (start_page end_page : Nat) (hse : start_page ≤ end_page)
    (R : Nat → HttpResp (List String))
    (hR : ∀ p ∈ List.range' start_page (end_page + 1 - start_page),
      (make_request (out (setParam params "page" (QVal.nat p)))
        (some (setParam params "page" (QVal.nat p))) false).1 = some (R p)) :
    (fetch_wallpaper_ids_paginated out params start_page end_page).1 =
      Except.ok (((List.range' start_page (end_page + 1 - start_page)).map
        (fun p => if (R p).status = 200 then (R p).payload else [])).flatten) ∧
    (((List.range' start_page (end_page + 1 - start_page)).map
        (fun p => if (R p).status = 200 then (R p).payload else [])).flatten).length =
      ((List.range' start_page (end_page + 1 - start_page)).map
        (fun p => if (R p).status = 200 then (R p).payload.length else 0)).sum ∧
    (fetch_wallpaper_ids_paginated out params start_page end_page).2 =
      ((List.range' start_page (end_page + 1 - start_page)).map
        (fun p =>
          (make_request (out (setParam params "page" (QVal.nat p)))
            (some (setParam params "page" (QVal.nat p))) false).2 ++
          [(if (R p).status = 200 then Event.log .info (.pageOk p)
            else Event.log .error (.pageFailed p (R p).status)),
           Event.sleepUniform (12 / 10) (15 / 10)])).flatten := by
  have h := fetchPagesGo_spec out
    (List.range' start_page (end_page + 1 - start_page)) params R hR
  refine ⟨?_, ?_, ?_⟩
  · rw [fetch_wallpaper_ids_paginated, h]
  · rw [List.length_flatten, List.map_map]
    congr 1
    refine List.map_eq_map_iff.mpr ?_
    intro p _
    simp [Function.comp_def, apply_ite List.length]
  · rw [fetch_wallpaper_ids_paginated, h]

/-- Witness for `paginated_collector_complete` at a concrete
environment: two pages, each answering 200 with one identifier. -/
theorem paginated_collector_complete_witness :
    (fetch_wallpaper_ids_paginated
        (fun _ _ => ReqOutcome.resp 200 ["w1"]) [("q", QVal.str "x")] 1 2).1 =
      Except.ok ["w1", "w1"] := by
  have h := paginated_collector_complete
    (fun _ _ => ReqOutcome.resp 200 ["w1"]) [("q", QVal.str "x")] 1 2
    (by omega) (fun _ => ⟨200, ["w1"]⟩) (by decide)
  rw [h.1]
  rfl

/-! ### C8 and C10: the URL parameter parser -/

theorem optAppend_nil (x : Option (List (List Char))) : optAppend x [] = x := by
  cases x <;> simp [optAppend]

theorem valuesOf_cons (k k0 v0 : List Char)
    (rest : List (List Char × List Char)) :
    valuesOf k ((k0, v0) :: rest) =
      if k0 = k then v0 :: valuesOf k rest else valuesOf k rest := by
  by_cases h : k0 = k <;> simp [valuesOf, List.filter_cons, h]

theorem qsAppend_lookup (d : List (List Char × List (List Char)))
    (k0 : List Char) (v0 k : List Char) :
    qsLookup (qsAppend d k0 v0) k =
      if k0 = k then
        match qsLookup d k with
        | none => some [v0]
        | some vs => some (vs ++ [v0])
      else qsLookup d k := by
  induction d with
  | nil => by_cases h : k0 = k <;> simp [qsAppend, qsLookup, h]
  | cons kv rest ih =>
    obtain ⟨k1, vs1⟩ := kv
    by_cases h1 : k1 = k0
    · subst h1
      by_cases h2 : k1 = k
      · subst h2
        simp [qsAppend, qsLookup]
      · simp [qsAppend, qsLookup, h2]
    · by_cases h2 : k1 = k
      · subst h2
        have h3 : ¬ k0 = k1 := fun he => h1 he.symm
        simp [qsAppend, qsLookup, h1, h3]
      · simp [qsAppend, qsLookup, h1, h2, ih]

theorem foldl_qsAppend_lookup (pairs : List (List Char × List Char)) :
    ∀ (d : List (List Char × List (List Char))) (k : List Char),
      qsLookup (pairs.foldl (fun d kv => qsAppend d kv.1 kv.2) d) k =
        optAppend (qsLookup d k) (valuesOf k pairs) := by
  induction pairs with
  | nil =>
    intro d k
    simp [valuesOf, optAppend_nil]
  | cons kv rest ih =>
    intro d k
    obtain ⟨k0, v0⟩ := kv
    simp only [List.foldl_cons]
    rw [ih (qsAppend d k0 v0) k, qsAppend_lookup, valuesOf_cons]
    by_cases h : k0 = k
    · rw [if_pos h, if_pos h]
      cases hq : qsLookup d k with
      | none => simp [optAppend]
      | some vs =>
        cases hvr : valuesOf k rest with
        | nil => simp [optAppend]
        | cons w ws => simp [optAppend]
    · rw [if_neg h, if_neg h]

theorem parse_qs_lookup (qs k : List Char) :
    qsLookup (parse_qs qs) k = optAppend none (valuesOf k (parse_qsl qs)) := by
  rw [parse_qs, foldl_qsAppend_lookup]
  rfl

theorem plookup_parse_url_params (url k : List Char) :
    plookup (parse_url_params url) k =
      (qsLookup (parse_qs (extractQuery url)) k).map (fun vs =>
        match vs with
        | [v] => PVal.scalar v
        | vs => PVal.multi vs) := by
  rw [parse_url_params]
  generalize parse_qs (extractQuery url) = d
  induction d with
  | nil => rfl
  | cons kv rest ih =>
    obtain ⟨k0, vs0⟩ := kv
    by_cases h : k0 = k <;> simp [plookup, qsLookup, h, ih]

/-- C8: `parse_url_params` is a pure function on the link; a query
parameter with exactly one kept occurrence maps to its (decoded) scalar
string value, a parameter with two or more kept occurrences maps to the
ordered list of its values in appearance order, a parameter with no
kept occurrence is absent, and a link whose query string is absent or
malformed (no kept `name=value` field at all) yields an empty
mapping. -/
theorem parse_url_params_scalar_or_sequence (url k : List Char) :
    (∀ v, valuesOf k (parse_qsl (extractQuery url)) = [v] →
      plookup (parse_url_params url) k = some (PVal.scalar v)) ∧
    (∀ vs, valuesOf k (parse_qsl (extractQuery url)) = vs → 2 ≤ vs.length →
      plookup (parse_url_params url) k = some (PVal.multi vs)) ∧
    (valuesOf k (parse_qsl (extractQuery url)) = [] →
      plookup (parse_url_params url) k = none) ∧
    (parse_qsl (extractQuery url) = [] → parse_url_params url = []) := by
  refine ⟨?_, ?_, ?_, ?_⟩
  · intro v hv
    rw [plookup_parse_url_params, parse_qs_lookup, hv]
    rfl
  · intro vs hvs hlen
    rw [plookup_parse_url_params, parse_qs_lookup, hvs]
    cases vs with
    | nil => simp at hlen
    | cons v1 t =>
      cases t with
      | nil => simp at hlen
      | cons v2 t2 => rfl
  · intro hv
    rw [plookup_parse_url_params, parse_qs_lookup, hv]
    rfl
  · intro hn
    simp [parse_url_params, parse_qs, hn]

/-- Witness for `parse_url_params_scalar_or_sequence` at concrete
links. -/
theorem parse_url_params_scalar_or_sequence_witness :
    plookup (parse_url_params "https://x/s?a=1&b=2&a=3".toList) "b".toList =
      some (PVal.scalar "2".toList) ∧
    plookup (parse_url_params "https://x/s?a=1&b=2&a=3".toList) "a".toList =
      some (PVal.multi ["1".toList, "3".toList]) ∧
    parse_url_params "https://x/s".toList = [] :=
  ⟨(parse_url_params_scalar_or_sequence "https://x/s?a=1&b=2&a=3".toList
      "b".toList).1 "2".toList (by decide),
   (parse_url_params_scalar_or_sequence "https://x/s?a=1&b=2&a=3".toList
      "a".toList).2.1 ["1".toList, "3".toList] (by decide) (by decide),
   (parse_url_params_scalar_or_sequence "https://x/s".toList
      "a".toList).2.2.2 (by decide)⟩

/-- C10: `parse_qsl` drops every blank-valued field
(`keep_blank_values` defaults to `False`), so a query parameter whose
occurrences all carry an empty raw value (or no `=` at all) is omitted
from the returned mapping entirely, and a blank-valued parameter is
indistinguishable from an absent one: parsing `...?q=&page=3` gives
the same mapping as parsing `...?page=3`. -/
theorem parse_url_params_blank_omitted :
    (∀ (url k : List Char),
      (∀ f ∈ queryFields (extractQuery url),
        unquotePy (takeUntilChar '=' f) = k →
          afterChar '=' f = none ∨ afterChar '=' f = some []) →
      plookup (parse_url_params url) k = none) ∧
    parse_url_params "https://x/search?q=&page=3".toList =
      parse_url_params "https://x/search?page=3".toList := by
  constructor
  · intro url k h
    rw [plookup_parse_url_params, parse_qs_lookup]
    have hv : valuesOf k (parse_qsl (extractQuery url)) = [] := by
      rw [valuesOf]
      refine List.map_eq_nil_iff.mpr (List.filter_eq_nil_iff.mpr ?_)
      intro kv hkv
      rw [parse_qsl] at hkv
      obtain ⟨f, hf, hpf⟩ := List.mem_filterMap.mp hkv
      intro hbeq
      have hk : kv.1 = k := by simpa using hbeq
      by_cases hfe : f.isEmpty
      · simp [pairOfField, hfe] at hpf
      · cases hac : afterChar '=' f with
        | none => simp [pairOfField, hfe, hac] at hpf
        | some v =>
          by_cases hve : v.isEmpty
          · simp [pairOfField, hfe, hac, hve] at hpf
          · simp only [pairOfField, hfe, hac, hve, Bool.false_eq_true,
              if_neg, not_false_iff, Option.some.injEq] at hpf
            have hname : unquotePy (takeUntilChar '=' f) = k := by
              rw [← hk, ← hpf]
            rcases h f hf hname with hc | hc
            · rw [hac] at hc
              cases hc
            · rw [hac] at hc
              have : v = [] := by injection hc
              subst this
              simp at hve
    rw [hv]
    rfl
  · decide

/-- Witness for `parse_url_params_blank_omitted` at the claim's example
input: the blank-valued `q` of `?q=&page=3` is absent from the
mapping. -/
theorem parse_url_params_blank_omitted_witness :
    plookup (parse_url_params "https://x/search?q=&page=3".toList)
      "q".toList = none :=
  parse_url_params_blank_omitted.1 "https://x/search?q=&page=3".toList
    "q".toList (by decide)

end WallHaven
